import Mathlib

/-!
Verification development for the healthcare-auditor rule engine.

Shallow embedding of:
* backend/app/rules/base.py        (RuleResult, ChainResult, rule contract)
* backend/app/core/rules_engine.py (RuleChain.execute, decision and scores)
* backend/app/rules/billing_rules.py   (AmountLimitRule, DuplicateDetectionRule)
* backend/app/rules/frequency_rules.py (ProcedureFrequencyRule)
* backend/app/core/risk_scoring.py     (RiskScoringEngine.calculate_composite_score)
* backend/app/core/anomaly_detection.py (z scores, composite anomaly score)

Modelling conventions: Python floats are rationals; datetimes are integer day
counts (timedelta arithmetic becomes integer arithmetic); Python exceptions
are the error side of `Except PyExn`; Python dict contexts are association
lists.  Wall-clock fields (execution_time_ms) and the free-form structured
details of business results are not load-bearing for any claim and are left
out or reduced to string pairs.  Python truthiness of an optional boolean
(`not result.passed`) is `pyTruthy`.
-/

namespace HCAudit

/-- One historical bill from the `historical_bills` context list.  The rules
access these via `getattr` without defaults (a missing attribute would raise),
so the comparison set is modelled with all fields present. -/
structure HistBill where
  claim_id : String
  patient_id : String
  provider_id : String
  procedure_code : String
  bill_date : Int
  billed_amount : ℚ
  deriving Repr, DecidableEq

/-- A value stored in the evaluation context dictionary. -/
inductive CtxVal where
  | str : String → CtxVal
  | num : ℚ → CtxVal
  | bills : List HistBill → CtxVal
  deriving Repr, DecidableEq

/-- The evaluation context: a Python dict from strings to values. -/
abbrev Ctx := List (String × CtxVal)

/-- `context.get("historical_bills", [])`: the historical comparison list, or
the empty list when the key is absent. -/
def ctxGetBills (ctx : Ctx) : List HistBill :=
  match (ctx.find? (fun kv => kv.1 == "historical_bills")).map Prod.snd with
  | some (CtxVal.bills bs) => bs
  | _ => []

/-- `RuleResult` from backend/app/rules/base.py.  `passed = none` is the
Python `passed=None`; defaults mirror the dataclass defaults. -/
structure RuleResult where
  rule_id : String
  rule_name : String
  passed : Option Bool
  skipped : Bool := false
  message : String := ""
  details : List (String × String) := []
  is_critical : Bool := false
  is_fatal : Bool := false
  weight : ℚ := 1
  score : Option ℚ := none
  context_updates : Ctx := []
  deriving Repr, DecidableEq

/-- Python truthiness of an `Optional[bool]`: `None` and `False` are falsy. -/
def pyTruthy : Option Bool → Bool
  | some b => b
  | none => false

/-- Python builtin `min` on two numbers (kept as an explicit conditional so
terms evaluate by kernel reduction). -/
def pyMin (a b : ℚ) : ℚ := if a ≤ b then a else b

/-- Python builtin `max` on two numbers. -/
def pyMax (a b : ℚ) : ℚ := if a ≤ b then b else a

/-- A Python exception: its class name and message. -/
structure PyExn where
  exnType : String
  msg : String
  deriving Repr, DecidableEq

/-- The result invariant documented in the spec data model (and maintained by
every `RuleResult` the repository constructs): a result is skipped exactly
when its outcome is absent, skipped results use the default
`is_fatal = False`, and a result with no outcome carries no score. -/
def ResultWF (r : RuleResult) : Prop :=
  (r.passed = none ↔ r.skipped = true) ∧
  (r.skipped = true → r.is_fatal = false) ∧
  (r.passed = none → r.score = none)

instance (r : RuleResult) : Decidable (ResultWF r) := by
  unfold ResultWF; infer_instance

/-- `RuleChain._determine_final_decision` from rules_engine.py, translated
clause by clause.  Note the Python tests `not r.passed` (truthiness) rather
than `r.passed == False`. -/
def determineFinalDecision (results : List RuleResult) : String :=
  if results.any (fun r => !pyTruthy r.passed && r.is_fatal) then "REJECTED"
  else if results.any (fun r => r.skipped) then "PENDING"
  else if !(results.filter (fun r => !pyTruthy r.passed && !r.is_fatal)).isEmpty
          && !(results.filter (fun r => pyTruthy r.passed)).isEmpty then
    if (results.filter (fun r => !pyTruthy r.passed && !r.is_fatal)).length
        ≤ (results.filter (fun r => pyTruthy r.passed)).length
    then "REVIEW_REQUIRED" else "REJECTED"
  else if !(results.filter (fun r => pyTruthy r.passed)).isEmpty then "APPROVED"
  else "REJECTED"

/-- Decision procedure written from the words of the specification (claim C1):
a failure is a result with `passed == false`, a pass has `passed == true`;
precedence fatal failure, then skipped, then mixed, then all-pass. -/
def specFinalDecision (results : List RuleResult) : String :=
  if results.any (fun r => (r.passed == some false) && r.is_fatal) then "REJECTED"
  else if results.any (fun r => r.skipped) then "PENDING"
  else if !(results.filter (fun r => (r.passed == some false) && !r.is_fatal)).isEmpty
          && !(results.filter (fun r => r.passed == some true)).isEmpty then
    if (results.filter (fun r => (r.passed == some false) && !r.is_fatal)).length
        ≤ (results.filter (fun r => r.passed == some true)).length
    then "REVIEW_REQUIRED" else "REJECTED"
  else if !(results.filter (fun r => r.passed == some true)).isEmpty
          && (results.filter (fun r => r.passed == some false)).isEmpty then "APPROVED"
  else "REJECTED"

/-- The per-result summand of `_calculate_fraud_score`:
`if not result.passed and result.score is not None: += weight * score`. -/
def failedContribution (r : RuleResult) : ℚ :=
  match r.score with
  | some s => if pyTruthy r.passed then 0 else r.weight * s
  | none => 0

/-- `RuleChain._calculate_fraud_score`: accumulate over the results, then cap
at 1. -/
def calculateFraudScore (results : List RuleResult) : ℚ :=
  pyMin (results.foldl (fun acc r => acc + failedContribution r) 0) 1

/-- `RuleChain._calculate_compliance_score`: start at 1, deduct, floor at 0. -/
def calculateComplianceScore (results : List RuleResult) : ℚ :=
  pyMax (results.foldl (fun acc r => acc - failedContribution r) 1) 0

/-- The aggregate written from the words of the specification (claim C5): the
sum over failed (non-skipped) results of weight times score. -/
def specFailedSum (results : List RuleResult) : ℚ :=
  ((results.filter (fun r => (r.passed == some false) && !r.skipped)).map
    (fun r => r.weight * r.score.getD 0)).sum

/-- The provider object attached to a bill (only its id is consulted). -/
structure Provider where
  id : String
  deriving Repr, DecidableEq

/-- The bill under evaluation.  Fields are optional: `getattr(bill, f, None)`
yields `none` when the attribute is absent. -/
structure Bill where
  claim_id : Option String := none
  patient_id : Option String := none
  provider_id : Option String := none
  provider : Option Provider := none
  procedure_code : Option String := none
  bill_date : Option Int := none
  billed_amount : Option ℚ := none
  allowed_amount : Option ℚ := none
  deriving Repr, DecidableEq

/-- A rule in the chain: identifier, name, priority, and the `evaluate`
operation, which can raise. -/
structure Rule where
  rule_id : String
  rule_name : String
  priority : Int
  evaluate : Bill → Ctx → Except PyExn RuleResult

/-- The result `RuleChain.execute` records when a rule raises: skipped, with
the message and exception type in the details map. -/
def errorResult (r : Rule) (e : PyExn) : RuleResult :=
  { rule_id := r.rule_id, rule_name := r.rule_name, passed := none,
    skipped := true,
    message := "Rule execution error: " ++ e.msg,
    details := [("error", e.msg), ("exception_type", e.exnType)] }

/-- The early-termination test of `RuleChain.execute`:
`result.is_critical and result.passed` or `result.is_fatal and not
result.passed` (Python truthiness on the optional boolean). -/
def stopsChain (res : RuleResult) : Bool :=
  (res.is_critical && pyTruthy res.passed) || (res.is_fatal && !pyTruthy res.passed)

/-- The loop of `RuleChain.execute`.  Every iteration passes the unchanged
`ctx` to the rule: the source accumulates `result.context_updates` into a
local dict named `context_updates` that is never merged back into `context`,
so the accumulator is dead state and is not modelled. -/
def runChain (bill : Bill) (ctx : Ctx) : List Rule → List RuleResult
  | [] => []
  | r :: rest =>
    match r.evaluate bill ctx with
    | Except.ok res =>
        if stopsChain res then [res] else res :: runChain bill ctx rest
    | Except.error e => errorResult r e :: runChain bill ctx rest

/-- Python dict `update`: later bindings replace earlier ones. -/
def ctxUpdate (ctx : Ctx) (updates : Ctx) : Ctx :=
  updates.foldl (fun acc kv => acc.filter (fun kv2 => !(kv2.1 == kv.1)) ++ [kv]) ctx

/-- Modelled from the spec (claim C2): the loop as the specification
describes it, merging each result.context_updates into the running context so
that later rules observe earlier derived entries.  Kept only to witness the
divergence of the source from the spec. -/
def specMergeRunChain (bill : Bill) : Ctx → List Rule → List RuleResult
  | _, [] => []
  | ctx, r :: rest =>
    match r.evaluate bill ctx with
    | Except.ok res =>
        if stopsChain res then [res]
        else res :: specMergeRunChain bill (ctxUpdate ctx res.context_updates) rest
    | Except.error e => errorResult r e :: specMergeRunChain bill ctx rest

/-- `ChainResult` from backend/app/rules/base.py (timing fields elided). -/
structure ChainResult where
  claim_id : String
  results : List RuleResult
  final_decision : String
  fraud_score : ℚ
  compliance_score : ℚ
  issues : List String
  warnings : List String
  deriving Repr, DecidableEq

/-- `RuleChain.execute`.  After the loop the source builds the `ChainResult`
with `claim_id=getattr(bill, "claim_id", bill.get("claim_id", "unknown"))`.
Python evaluates the getattr default eagerly, and an attribute-shaped bill
(the ORM Bill model, or the MockBill of the test-suite) has no `get` method,
so this construction raises AttributeError no matter what the attribute
holds; the raise happens outside the per-rule try block and propagates. -/
def execute (rules : List Rule) (bill : Bill) (ctx : Ctx) : Except PyExn ChainResult :=
  let results := runChain bill ctx rules
  let _ := results
  Except.error { exnType := "AttributeError",
                 msg := "Bill object has no attribute get" }

/-- The stopping test written from the words of the specification (claim C3):
`passed == true and is_critical == true`, or `passed == false and
is_fatal == true`. -/
def claimStop (res : RuleResult) : Bool :=
  ((res.passed == some true) && res.is_critical) ||
  ((res.passed == some false) && res.is_fatal)

/-- The result the loop records for one rule (a raise becomes the skipped
error result). -/
def evalOutcome (bill : Bill) (ctx : Ctx) (r : Rule) : RuleResult :=
  match r.evaluate bill ctx with
  | Except.ok res => res
  | Except.error e => errorResult r e

/-- The skipped result every rule returns on a failed precondition guard
(`passed=None, skipped=True` with the given message). -/
def skippedResult (rid rname msg : String) : RuleResult :=
  { rule_id := rid, rule_name := rname, passed := none, skipped := true,
    message := msg }

namespace AmountLimitRule

/-- `AmountLimitRule.evaluate` from billing_rules.py.  Required fields
billed_amount and allowed_amount; `if not billed_amount` skips a zero or
missing billed amount; overage over 20 percent of the allowed amount fails;
the failure score divides by `allowed_amount * 0.20`, which raises
ZeroDivisionError when the allowed amount is zero.  Formatted-float message
text is elided. -/
def evaluate (bill : Bill) (_ctx : Ctx) : Except PyExn RuleResult :=
  match bill.billed_amount, bill.allowed_amount with
  | some billed, some allowed =>
    if billed == 0 then
      Except.ok (skippedResult "AMOUNT_LIMIT" "Billing Amount Limit"
        "No billed amount provided")
    else
      let overage := billed - allowed
      let overage_threshold := allowed * (1/5)
      if overage ≤ overage_threshold then
        Except.ok { rule_id := "AMOUNT_LIMIT", rule_name := "Billing Amount Limit",
                    passed := some true,
                    message := "Billed amount vs allowed: within limit",
                    score := some 0, weight := 1 }
      else if overage_threshold == 0 then
        Except.error { exnType := "ZeroDivisionError", msg := "float division by zero" }
      else
        Except.ok { rule_id := "AMOUNT_LIMIT", rule_name := "Billing Amount Limit",
                    passed := some false,
                    message := "Billed amount vs allowed: exceeds",
                    score := some (pyMin (overage / overage_threshold) 1), weight := 1 }
  | _, _ =>
      Except.ok (skippedResult "AMOUNT_LIMIT" "Billing Amount Limit"
        "Missing required fields")

end AmountLimitRule

/-- The AmountLimitRule as a chain member (priority 35). -/
def amountLimitRule : Rule :=
  { rule_id := "AMOUNT_LIMIT", rule_name := "Billing Amount Limit",
    priority := 35, evaluate := AmountLimitRule.evaluate }

namespace DuplicateDetectionRule

/-- `DuplicateDetectionRule.evaluate` from billing_rules.py.  Required fields
patient_id, provider_id, procedure_code, bill_date, billed_amount; then
`all([claim_id, ...])` re-tests Python truthiness (empty strings and a zero
amount are falsy, the claim id defaults to None when absent).  The exact
duplicate scan is pure; the near-duplicate comprehension evaluates
`getattr(b, "bill_date", datetime.min)` whose default expression names
`datetime`, which billing_rules.py never imports (it only does
`from datetime import timedelta`), so the first candidate that reaches the
date conditions raises NameError. -/
def evaluate (bill : Bill) (ctx : Ctx) : Except PyExn RuleResult :=
  match bill.patient_id, bill.provider_id, bill.procedure_code,
        bill.bill_date, bill.billed_amount with
  | some patient, some provider, some proc, some d, some amt =>
    match bill.claim_id with
    | some claim =>
      if claim == "" || patient == "" || provider == "" || proc == "" || amt == 0 then
        Except.ok (skippedResult "DUPLICATE_DETECTION" "Duplicate Bill Detection"
          "Missing key fields for duplicate detection")
      else
        let hist := ctxGetBills ctx
        let exact := hist.filter (fun b =>
          !(b.claim_id == claim) && b.patient_id == patient &&
          b.provider_id == provider && b.procedure_code == proc && b.bill_date == d)
        if !exact.isEmpty then
          Except.ok { rule_id := "DUPLICATE_DETECTION",
                      rule_name := "Duplicate Bill Detection",
                      passed := some false, is_fatal := true, is_critical := true,
                      message := "Exact duplicate bill found: " ++
                        toString exact.length ++ " existing bill(s)",
                      weight := 1, score := some 1 }
        else if hist.any (fun b =>
          !(b.claim_id == claim) && b.patient_id == patient &&
          b.provider_id == provider && b.procedure_code == proc) then
          Except.error { exnType := "NameError", msg := "name datetime is not defined" }
        else
          Except.ok { rule_id := "DUPLICATE_DETECTION",
                      rule_name := "Duplicate Bill Detection",
                      passed := some true, message := "No duplicate bills found",
                      weight := 1, score := some 0 }
    | none =>
        Except.ok (skippedResult "DUPLICATE_DETECTION" "Duplicate Bill Detection"
          "Missing key fields for duplicate detection")
  | _, _, _, _, _ =>
      Except.ok (skippedResult "DUPLICATE_DETECTION" "Duplicate Bill Detection"
        "Missing required fields")

end DuplicateDetectionRule

/-- The DuplicateDetectionRule as a chain member (priority 10, critical and
fatal). -/
def duplicateDetectionRule : Rule :=
  { rule_id := "DUPLICATE_DETECTION", rule_name := "Duplicate Bill Detection",
    priority := 10, evaluate := DuplicateDetectionRule.evaluate }

namespace ProcedureFrequencyRule

/-- The filter of the source: same procedure code, same provider id, billed on
or after `bill_date - 30` days.  The source imposes no upper date bound. -/
def recentBills (hist : List HistBill) (providerId proc : String) (d : Int) :
    List HistBill :=
  hist.filter (fun b =>
    b.procedure_code == proc && b.provider_id == providerId &&
    decide (d - 30 ≤ b.bill_date))

/-- `ProcedureFrequencyRule.evaluate` from frequency_rules.py.  Required
fields provider, procedure_code, bill_date; skip when the historical list is
absent or empty; count recent same-provider same-procedure bills; valid when
the count is at most 50; failure score `min(count / 50, 1.0)`, weight 0.5. -/
def evaluate (bill : Bill) (ctx : Ctx) : Except PyExn RuleResult :=
  match bill.provider, bill.procedure_code, bill.bill_date with
  | some provider, some proc, some d =>
    if proc == "" then
      Except.ok (skippedResult "PROCEDURE_FREQUENCY" "Procedure Frequency Limit"
        "Missing provider, procedure code, or bill date")
    else
      let hist := ctxGetBills ctx
      if hist.isEmpty then
        Except.ok (skippedResult "PROCEDURE_FREQUENCY" "Procedure Frequency Limit"
          "No historical billing data available")
      else
        let recent := recentBills hist provider.id proc d
        Except.ok { rule_id := "PROCEDURE_FREQUENCY",
                    rule_name := "Procedure Frequency Limit",
                    passed := some (decide (recent.length ≤ 50)),
                    message := "Procedure frequency: " ++ toString recent.length ++
                      "/30 days (limit: 50)",
                    score := some (if recent.length ≤ 50 then 0
                                   else pyMin ((recent.length : ℚ) / 50) 1),
                    weight := 1/2 }
  | _, _, _ =>
      Except.ok (skippedResult "PROCEDURE_FREQUENCY" "Procedure Frequency Limit"
        "Missing required fields")

end ProcedureFrequencyRule

/-- The count written from the words of claim C8: historical bills sharing
the provider and procedure code within the trailing 30-day window ENDING at
the bill date (both bounds). -/
def claimWindowCount (hist : List HistBill) (providerId proc : String) (d : Int) :
    Nat :=
  (hist.filter (fun b =>
    b.procedure_code == proc && b.provider_id == providerId &&
    decide (d - 30 ≤ b.bill_date) && decide (b.bill_date ≤ d))).length

namespace RiskScoringEngine

/-- The layer scores dict passed to `calculate_composite_score`; an absent
key is `none`. -/
structure LayerScores where
  rules_fraud_score : Option ℚ := none
  ml_fraud_probability : Option ℚ := none
  network_risk_score : Option ℚ := none
  nlp_risk_score : Option ℚ := none
  code_legality_score : Option ℚ := none
  deriving Repr, DecidableEq

/-- The four configured primary weights (`self.weights`). -/
structure Weights where
  rules : ℚ
  ml : ℚ
  network : ℚ
  nlp : ℚ
  deriving Repr, DecidableEq

/-- The two configured thresholds (`self.thresholds`). -/
structure Thresholds where
  high : ℚ
  medium : ℚ
  deriving Repr, DecidableEq

/-- The fields of the returned dict that claims depend on (the layer-score
echo and the weights copy are omitted). -/
structure CompositeScore where
  final_fraud_score : ℚ
  risk_level : String
  score_variance : ℚ
  deriving Repr, DecidableEq

/-- Python `round(x, 4)` idealised over the rationals: scale by 10^4 and
round half to even. -/
def pyRound4 (q : ℚ) : ℚ :=
  let scaled := q * 10000
  let fl := ⌊scaled⌋
  let frac := scaled - fl
  let n : Int :=
    if frac > 1/2 then fl + 1
    else if frac < 1/2 then fl
    else if fl % 2 = 0 then fl else fl + 1
  (n : ℚ) / 10000

/-- `RiskScoringEngine.calculate_composite_score` from risk_scoring.py.
Absent layer inputs default to 0.5 (legality to 1.0); the final score is the
weighted sum plus the fixed `0.1 * (1 - legality)` term; the level compares
against the high then medium thresholds; the reported score is rounded to
four places and the variance is max minus min over the five layer inputs
(with legality already converted to its fraud contribution).  The statistics
counters and the exception fallback are not modelled: with the weights given
as a total structure no lookup in the body can raise. -/
def calculate_composite_score (w : Weights) (t : Thresholds) (ls : LayerScores) :
    CompositeScore :=
  let rules_score := ls.rules_fraud_score.getD (1/2)
  let ml_score := ls.ml_fraud_probability.getD (1/2)
  let network_score := ls.network_risk_score.getD (1/2)
  let nlp_score := ls.nlp_risk_score.getD (1/2)
  let legality_score := ls.code_legality_score.getD 1
  let legality_fraud_score := 1 - legality_score
  let final_score :=
    w.rules * rules_score + w.ml * ml_score + w.network * network_score +
    w.nlp * nlp_score + (1/10) * legality_fraud_score
  let risk_level :=
    if final_score ≥ t.high then "high"
    else if final_score ≥ t.medium then "medium"
    else "low"
  let hi := pyMax rules_score (pyMax ml_score (pyMax network_score
              (pyMax nlp_score legality_fraud_score)))
  let lo := pyMin rules_score (pyMin ml_score (pyMin network_score
              (pyMin nlp_score legality_fraud_score)))
  { final_fraud_score := pyRound4 final_score,
    risk_level := risk_level,
    score_variance := pyRound4 (hi - lo) }

/-- The composite formula written from the words of claim C7. -/
def specFinalFormula (w : Weights) (ls : LayerScores) : ℚ :=
  w.rules * ls.rules_fraud_score.getD (1/2) +
  w.ml * ls.ml_fraud_probability.getD (1/2) +
  w.network * ls.network_risk_score.getD (1/2) +
  w.nlp * ls.nlp_risk_score.getD (1/2) +
  (1/10) * (1 - ls.code_legality_score.getD 1)

/-- The risk-level map written from the words of claim C7. -/
def specRiskLevel (t : Thresholds) (final : ℚ) : String :=
  if final ≥ t.high then "high"
  else if final ≥ t.medium then "medium"
  else "low"

end RiskScoringEngine

namespace AnomalyDetection

/-- Mean of a list of rationals (`np.mean`). -/
def listMean (xs : List ℚ) : ℚ := xs.sum / xs.length

/-- Population variance (`np.std` squared). -/
def listPopVar (xs : List ℚ) : ℚ :=
  ((xs.map (fun x => (x - listMean xs) ^ 2)).sum) / xs.length

/-- `AnomalyDetection.z_score_anomaly`, with each z-score represented by its
square: the float computation takes a square root, which has no rational
value, and every consumer compares a magnitude with a threshold c, for which
`abs z > c` is equivalent to `z ^ 2 > c ^ 2`.  Fewer than two values, or a
zero standard deviation, yields the all-zero vector. -/
def zScoreSqList (values : List ℚ) : List ℚ :=
  if values.length < 2 then List.replicate values.length 0
  else
    let m := listMean values
    let v := listPopVar values
    if v = 0 then List.replicate values.length 0
    else values.map (fun x => (x - m) ^ 2 / v)

/-- `AnomalyDetection._calculate_anomaly_score`, on squared z-scores, with the
Benford outcome supplied as a boolean (the chi-square p-value of the Benford
check is a scipy statistical routine outside this embedding; the claim takes
its verdict as given): add 0.5 when the MAXIMUM squared z-score exceeds 9
(that is, some magnitude exceeds 3), else 0.3 when it exceeds 4; add a flat
0.5 when the Benford check is anomalous; cap at 1. -/
def calculateAnomalyScore (zsqs : List ℚ) (benfordAnomaly : Bool) : ℚ :=
  let base : ℚ :=
    match zsqs with
    | [] => 0
    | z :: zs =>
      let maxZsq := zs.foldl pyMax z
      if maxZsq > 9 then 1/2 else if maxZsq > 4 then 3/10 else 0
  pyMin (base + (if benfordAnomaly then 1/2 else 0)) 1

/-- The composite anomaly score of `AnomalyDetection.analyze_bill`: the
z-scores are computed over the historical amounts followed by the current
billed amount, and fed with the Benford verdict into the score
combination. -/
def analyzeBillAnomalyScore (billedAmount : ℚ) (historicalAmounts : List ℚ)
    (benfordAnomaly : Bool) : ℚ :=
  calculateAnomalyScore (zScoreSqList (historicalAmounts ++ [billedAmount]))
    benfordAnomaly

/-- The score written from the words of claim C9: combine the LATEST value
z-score magnitude (0.5 above 3, else 0.3 above 2) with the flat Benford 0.5,
capped at 1. -/
def specLatestAnomalyScore (billedAmount : ℚ) (historicalAmounts : List ℚ)
    (benfordAnomaly : Bool) : ℚ :=
  let lastZsq := (zScoreSqList (historicalAmounts ++ [billedAmount])).getLast?.getD 0
  let base : ℚ := if lastZsq > 9 then 1/2 else if lastZsq > 4 then 3/10 else 0
  pyMin (base + (if benfordAnomaly then 1/2 else 0)) 1

/-- The amended form of claim C9: the same combination, driven by the maximum
squared z-score over the historical amounts and the current one. -/
def specMaxAnomalyScore (billedAmount : ℚ) (historicalAmounts : List ℚ)
    (benfordAnomaly : Bool) : ℚ :=
  let zsqs := zScoreSqList (historicalAmounts ++ [billedAmount])
  let base : ℚ :=
    if ∃ w ∈ zsqs, 9 < w then 1/2
    else if ∃ w ∈ zsqs, 4 < w then 3/10 else 0
  pyMin (base + (if benfordAnomaly then 1/2 else 0)) 1

end AnomalyDetection

/-! Concrete fixtures used by counterexamples and witnesses. -/

/-- A minimal bill for chain-level demonstrations whose rules ignore the
bill. -/
def demoBill : Bill := { claim_id := some "CLM-1" }

/-- The result a context-deriving demo rule returns: it passes and asks for
`derived_flag` to be merged into the running context. -/
def derivedFlagResult : RuleResult :=
  { rule_id := "DERIVE", rule_name := "Derive", passed := some true,
    context_updates := [("derived_flag", CtxVal.str "yes")] }

/-- A demo rule that derives a context entry. -/
def derivingRule : Rule :=
  { rule_id := "DERIVE", rule_name := "Derive", priority := 1,
    evaluate := fun _ _ => Except.ok derivedFlagResult }

/-- A demo rule that passes exactly when it observes the derived entry in the
context it is handed. -/
def observingRule : Rule :=
  { rule_id := "OBSERVE", rule_name := "Observe", priority := 2,
    evaluate := fun _ ctx =>
      Except.ok { rule_id := "OBSERVE", rule_name := "Observe",
                  passed := some (ctx.any (fun kv => kv.1 == "derived_flag")) } }

/-- A plain passing result (neither critical nor fatal). -/
def passResultA : RuleResult :=
  { rule_id := "PASS_A", rule_name := "Pass A", passed := some true,
    score := some 0 }

/-- A demo rule returning `passResultA`. -/
def passRuleA : Rule :=
  { rule_id := "PASS_A", rule_name := "Pass A", priority := 1,
    evaluate := fun _ _ => Except.ok passResultA }

/-- A fatal failing result. -/
def fatalFailResult : RuleResult :=
  { rule_id := "FATAL_B", rule_name := "Fatal B", passed := some false,
    is_fatal := true, score := some 1 }

/-- A demo rule returning `fatalFailResult`. -/
def fatalFailRule : Rule :=
  { rule_id := "FATAL_B", rule_name := "Fatal B", priority := 2,
    evaluate := fun _ _ => Except.ok fatalFailResult }

/-- A demo rule ordered after the fatal one; its result must never appear. -/
def unreachedRule : Rule :=
  { rule_id := "TAIL_C", rule_name := "Tail C", priority := 3,
    evaluate := fun _ _ =>
      Except.ok { rule_id := "TAIL_C", rule_name := "Tail C", passed := some true } }

/-- The exception a crashing demo rule raises. -/
def boomExn : PyExn := { exnType := "ValueError", msg := "boom" }

/-- A demo rule whose evaluation raises. -/
def boomRule : Rule :=
  { rule_id := "BOOM", rule_name := "Boom", priority := 1,
    evaluate := fun _ _ => Except.error boomExn }

/-- The passing result of the rule after the crashing one. -/
def tailOkResult : RuleResult :=
  { rule_id := "TAIL_OK", rule_name := "Tail Ok", passed := some true,
    score := some 0 }

/-- The rule after the crashing one: it must still run. -/
def tailOkRule : Rule :=
  { rule_id := "TAIL_OK", rule_name := "Tail Ok", priority := 2,
    evaluate := fun _ _ => Except.ok tailOkResult }

/-- A passing well-formed result for decision and score witnesses. -/
def wfPass : RuleResult :=
  { rule_id := "WF_PASS", rule_name := "WF Pass", passed := some true,
    score := some 0 }

/-- A non-fatal failing well-formed result with weight 0.5 and score 0.3. -/
def wfFail : RuleResult :=
  { rule_id := "WF_FAIL", rule_name := "WF Fail", passed := some false,
    weight := 1/2, score := some (3/10) }

/-- A skipped well-formed result. -/
def wfSkip : RuleResult :=
  { rule_id := "WF_SKIP", rule_name := "WF Skip", passed := none,
    skipped := true }

/-- Result list for the decision witness. -/
def c1WitnessResults : List RuleResult := [wfPass, wfFail]

/-- Result list for the score witness. -/
def c5WitnessResults : List RuleResult := [wfFail, wfSkip, wfPass]

/-- The bill of the duplicate-detection scenarios: all key fields present. -/
def c6Bill : Bill :=
  { claim_id := some "TEST-001", patient_id := some "PATIENT-001",
    provider_id := some "PROV-1", procedure_code := some "99214",
    bill_date := some 100, billed_amount := some 150 }

/-- A near-duplicate three days before the bill (same patient, provider and
procedure, different claim id). -/
def c6NearDup : HistBill :=
  { claim_id := "OTHER-002", patient_id := "PATIENT-001",
    provider_id := "PROV-1", procedure_code := "99214",
    bill_date := 97, billed_amount := 150 }

/-- An exact duplicate (same date, different claim id). -/
def c6ExactDup : HistBill :=
  { claim_id := "OTHER-001", patient_id := "PATIENT-001",
    provider_id := "PROV-1", procedure_code := "99214",
    bill_date := 100, billed_amount := 150 }

/-- A historical bill of another patient. -/
def c6Unrelated : HistBill :=
  { claim_id := "OTHER-003", patient_id := "PATIENT-002",
    provider_id := "PROV-1", procedure_code := "99214",
    bill_date := 100, billed_amount := 150 }

/-- Context holding the near-duplicate. -/
def c6NearCtx : Ctx := [("historical_bills", CtxVal.bills [c6NearDup])]

/-- Context holding the exact duplicate. -/
def c6ExactCtx : Ctx := [("historical_bills", CtxVal.bills [c6ExactDup])]

/-- Context holding only an unrelated bill. -/
def c6CleanCtx : Ctx := [("historical_bills", CtxVal.bills [c6Unrelated])]

/-- The bill of the frequency scenarios (provider P1, procedure 99214, day
100). -/
def c8Bill : Bill :=
  { provider := some { id := "P1" }, procedure_code := some "99214",
    bill_date := some 100 }

/-- Fifty-one same-provider same-procedure bills dated AFTER the bill under
evaluation (day 150): outside any trailing window ending at day 100, yet
counted by the source. -/
def c8FutureHist : List HistBill :=
  List.replicate 51
    { claim_id := "H-FUT", patient_id := "PAT", provider_id := "P1",
      procedure_code := "99214", bill_date := 150, billed_amount := 100 }

/-- Context holding the future-dated history. -/
def c8FutureCtx : Ctx := [("historical_bills", CtxVal.bills c8FutureHist)]

/-- Fifty-one same-provider same-procedure bills inside the trailing window
(day 90). -/
def c8wHist : List HistBill :=
  List.replicate 51
    { claim_id := "H-WIN", patient_id := "PAT", provider_id := "P1",
      procedure_code := "99214", bill_date := 90, billed_amount := 100 }

/-- Context holding the in-window history. -/
def c8wCtx : Ctx := [("historical_bills", CtxVal.bills c8wHist)]

/-- A bill whose allowed amount is present and zero while the billed amount
is positive. -/
def c10Bill : Bill := { billed_amount := some 100, allowed_amount := some 0 }

/-! Theorems. -/

/-- Pointwise equal predicates give equal `List.any`. -/
theorem any_congr_mem {α : Type} {p q : α → Bool} :
    ∀ (l : List α), (∀ a ∈ l, p a = q a) → l.any p = l.any q := by
  intro l h
  induction l with
  | nil => rfl
  | cons a t ih =>
    simp only [List.any_cons]
    rw [h a (List.mem_cons_self a t),
      ih (fun x hx => h x (List.mem_cons_of_mem a hx))]

/-- Pointwise equal predicates give equal `List.filter`. -/
theorem filter_congr_mem {α : Type} {p q : α → Bool} :
    ∀ (l : List α), (∀ a ∈ l, p a = q a) → l.filter p = l.filter q := by
  intro l h
  induction l with
  | nil => rfl
  | cons a t ih =>
    simp only [List.filter_cons]
    rw [h a (List.mem_cons_self a t),
      ih (fun x hx => h x (List.mem_cons_of_mem a hx))]

/-- C1.  Under the documented result invariant, the decision of the source is
exactly the precedence of the specification: fatal failure, then skipped,
then the mixed-outcome comparison of counts, then all-pass approval, then the
degenerate rejection. -/
theorem final_decision_follows_spec_precedence (results : List RuleResult)
    (h : ∀ r ∈ results, ResultWF r) :
    determineFinalDecision results = specFinalDecision results := by
  have hfatal : results.any (fun r => !pyTruthy r.passed && r.is_fatal)
      = results.any (fun r => (r.passed == some false) && r.is_fatal) := by
    apply any_congr_mem
    intro r hr
    obtain ⟨h1, h2, _⟩ := h r hr
    cases hp : r.passed with
    | none =>
      have hf : r.is_fatal = false := h2 (h1.mp hp)
      simp [pyTruthy, hf]
    | some b => cases b <;> simp [pyTruthy]
  unfold determineFinalDecision specFinalDecision
  rw [hfatal]
  by_cases hfat : results.any (fun r => (r.passed == some false) && r.is_fatal)
      = true
  · simp [hfat]
  · have hfat' : results.any (fun r => (r.passed == some false) && r.is_fatal)
        = false := by
      simpa using hfat
    by_cases hsk : results.any (fun r => r.skipped) = true
    · simp [hfat', hsk]
    · have hsk' : results.any (fun r => r.skipped) = false := by simpa using hsk
      have hns : ∀ r ∈ results, r.passed ≠ none := by
        intro r hr hnone
        have hskip : r.skipped = true := (h r hr).1.mp hnone
        have : results.any (fun r => r.skipped) = true :=
          List.any_eq_true.mpr ⟨r, hr, hskip⟩
        rw [hsk'] at this
        exact Bool.false_ne_true this
      have hnf : results.filter (fun r => !pyTruthy r.passed && !r.is_fatal)
          = results.filter (fun r => (r.passed == some false) && !r.is_fatal) := by
        apply filter_congr_mem
        intro r hr
        cases hp : r.passed with
        | none => exact absurd hp (hns r hr)
        | some b => cases b <;> simp [pyTruthy]
      have hpass : results.filter (fun r => pyTruthy r.passed)
          = results.filter (fun r => r.passed == some true) := by
        apply filter_congr_mem
        intro r _
        cases hp : r.passed with
        | none => simp [pyTruthy]
        | some b => cases b <;> simp [pyTruthy]
      have hnofat : ∀ r ∈ results,
          ((r.passed == some false) && r.is_fatal) = false := by
        intro r hr
        by_cases hbc : ((r.passed == some false) && r.is_fatal) = true
        · exfalso
          have : results.any (fun r => (r.passed == some false) && r.is_fatal)
              = true := List.any_eq_true.mpr ⟨r, hr, hbc⟩
          rw [hfat'] at this
          exact Bool.false_ne_true this
        · simpa using hbc
      have hfl : results.filter (fun r => r.passed == some false)
          = results.filter (fun r => (r.passed == some false) && !r.is_fatal) := by
        apply filter_congr_mem
        intro r hr
        have := hnofat r hr
        cases hp : r.passed with
        | none => simp
        | some b =>
          cases b
          · rw [hp] at this
            simp at this
            simp [this]
          · simp
      rw [hnf, hpass, hfl]
      simp only [hfat', hsk', Bool.false_eq_true, if_false]
      by_cases hmix :
          (!(results.filter (fun r => (r.passed == some false) && !r.is_fatal)).isEmpty
            && !(results.filter (fun r => r.passed == some true)).isEmpty) = true
      · simp [hmix]
      · have hmix' := (Bool.not_eq_true _).mp hmix
        by_cases hp : (results.filter (fun r => r.passed == some true)).isEmpty = true
        · simp [hmix', hp]
        · have hp' : (results.filter (fun r => r.passed == some true)).isEmpty
              = false := by simpa using hp
          have hnfe :
              (results.filter
                (fun r => (r.passed == some false) && !r.is_fatal)).isEmpty = true := by
            rcases Bool.and_eq_false_iff.mp hmix' with hc | hc
            · simpa using hc
            · rw [hp'] at hc
              simp at hc
          simp [hmix', hp', hnfe]

/-- C1 witness: a pass together with a non-fatal failure, both well formed;
the theorem applies and both functions return REVIEW_REQUIRED. -/
theorem final_decision_follows_spec_precedence_witness :
    (∀ r ∈ c1WitnessResults, ResultWF r) ∧
    determineFinalDecision c1WitnessResults = specFinalDecision c1WitnessResults :=
  ⟨by decide, final_decision_follows_spec_precedence c1WitnessResults (by decide)⟩

/-- C2.  The source accumulates each context_updates map into a local dict
that is never merged back into the context passed to `evaluate`, so a later
rule does not observe an earlier derived entry: the observing rule, which
passes exactly when it sees `derived_flag`, fails under the source loop, and
passes under the loop the specification describes. -/
theorem context_updates_never_reach_later_rules :
    ((runChain demoBill [] [derivingRule, observingRule]).map
        (fun r => r.passed) = [some true, some false]) ∧
    ((specMergeRunChain demoBill [] [derivingRule, observingRule]).map
        (fun r => r.passed) = [some true, some true]) :=
  ⟨rfl, rfl⟩

/-- C4.  A raising rule is recorded as a skipped result carrying the message
and exception type, and the next rule still runs; but the run as a whole
never returns a ChainResult, because the construction after the loop
evaluates `bill.get` as an eager getattr default and attribute-shaped bills
have no such method. -/
theorem rule_error_recorded_skipped_and_execute_raises :
    (runChain demoBill [] [boomRule, tailOkRule]
        = [errorResult boomRule boomExn, tailOkResult]) ∧
    (errorResult boomRule boomExn).skipped = true ∧
    (errorResult boomRule boomExn).passed = none ∧
    (errorResult boomRule boomExn).message = "Rule execution error: boom" ∧
    (errorResult boomRule boomExn).details
        = [("error", "boom"), ("exception_type", "ValueError")] ∧
    (∀ (rules : List Rule) (bill : Bill) (ctx : Ctx),
        execute rules bill ctx
          = Except.error { exnType := "AttributeError",
                           msg := "Bill object has no attribute get" }) :=
  ⟨rfl, rfl, rfl, rfl, rfl, fun _ _ _ => rfl⟩

/-- C6.  On the bill with every key field present: an exact duplicate yields
the fatal critical failure with score 1; a clean history passes; but a
near-duplicate three days prior makes `evaluate` raise NameError (the module
never imports `datetime`, only `timedelta`), and the chain records the rule
as skipped instead of the specified non-fatal failure with score 0.3. -/
theorem duplicate_detection_near_duplicate_raises :
    (DuplicateDetectionRule.evaluate c6Bill c6NearCtx
        = Except.error { exnType := "NameError",
                         msg := "name datetime is not defined" }) ∧
    ((DuplicateDetectionRule.evaluate c6Bill c6ExactCtx).map
        (fun r => (r.passed, r.is_fatal, r.is_critical, r.score))
        = Except.ok (some false, true, true, some 1)) ∧
    ((DuplicateDetectionRule.evaluate c6Bill c6CleanCtx).map
        (fun r => r.passed) = Except.ok (some true)) ∧
    ((runChain c6Bill c6NearCtx [duplicateDetectionRule]).map
        (fun r => (r.skipped, r.passed)) = [(true, none)]) :=
  ⟨rfl, rfl, rfl, rfl⟩

/-- A result that stops the chain per the claim condition also stops the
source loop. -/
theorem claimStop_stopsChain (res : RuleResult) (h : claimStop res = true) :
    stopsChain res = true := by
  unfold claimStop at h
  unfold stopsChain
  cases hp : res.passed with
  | none => simp [hp] at h
  | some b =>
    cases b
    · simp only [hp] at h
      simp at h
      simp [pyTruthy, h]
    · simp only [hp] at h
      simp at h
      simp [pyTruthy, h]

/-- A well-formed result that does not stop per the claim condition does not
stop the source loop either. -/
theorem not_claimStop_not_stopsChain (res : RuleResult)
    (hwf : ResultWF res) (h : claimStop res = false) :
    stopsChain res = false := by
  unfold claimStop at h
  unfold stopsChain
  cases hp : res.passed with
  | none =>
    have hf : res.is_fatal = false := hwf.2.1 (hwf.1.mp hp)
    simp [pyTruthy, hf]
  | some b =>
    cases b
    · simp at h
      simp [pyTruthy, h.2 hp]
    · simp at h
      simp [pyTruthy, h.1 hp]

/-- C3.  The loop evaluates rules in order and returns exactly one recorded
result per rule up to and including the first whose result passes critically
or fails fatally; rules after that point contribute no entry.  The rules
before the stopping one are assumed not to stop per the claim condition and
to produce well-formed results when they succeed (raising rules never
stop). -/
theorem chain_stops_at_first_critical_or_fatal (bill : Bill) (ctx : Ctx)
    (pre : List Rule) (r : Rule) (post : List Rule) (res : RuleResult)
    (hpre : ∀ p ∈ pre, ∀ res', p.evaluate bill ctx = Except.ok res' →
        claimStop res' = false ∧ ResultWF res')
    (hr : r.evaluate bill ctx = Except.ok res)
    (hstop : claimStop res = true) :
    runChain bill ctx (pre ++ r :: post)
      = pre.map (evalOutcome bill ctx) ++ [res] := by
  have hstop' : stopsChain res = true := claimStop_stopsChain res hstop
  induction pre with
  | nil =>
    simp only [List.nil_append, List.map_nil]
    simp only [runChain]
    rw [hr]
    simp [hstop']
  | cons p ps ih =>
    have hrest : ∀ q ∈ ps, ∀ res', q.evaluate bill ctx = Except.ok res' →
        claimStop res' = false ∧ ResultWF res' :=
      fun q hq => hpre q (List.mem_cons_of_mem p hq)
    simp only [List.cons_append, List.map_cons]
    cases hpe : p.evaluate bill ctx with
    | ok res' =>
      obtain ⟨hcs, hwf⟩ := hpre p (List.mem_cons_self p ps) res' hpe
      have hsc : stopsChain res' = false :=
        not_claimStop_not_stopsChain res' hwf hcs
      simp only [runChain]
      rw [hpe]
      simp only [hsc, Bool.false_eq_true, if_false]
      rw [ih hrest]
      simp [evalOutcome, hpe]
    | error e =>
      simp only [runChain]
      rw [hpe]
      rw [ih hrest]
      simp [evalOutcome, hpe]

/-- C3 witness: a passing rule, then a fatally failing one, then a rule that
must never run; the chain records exactly the first two results. -/
theorem chain_stops_at_first_critical_or_fatal_witness :
    runChain demoBill [] [passRuleA, fatalFailRule, unreachedRule]
      = [passResultA, fatalFailResult] := by
  have h := chain_stops_at_first_critical_or_fatal demoBill [] [passRuleA]
    fatalFailRule [unreachedRule] fatalFailResult
    (by
      intro p hp res' he
      have hp' : p = passRuleA := by simpa using hp
      subst hp'
      simp only [passRuleA] at he
      have : res' = passResultA := by
        cases he
        rfl
      subst this
      exact ⟨rfl, by decide⟩)
    rfl rfl
  simpa [evalOutcome] using h

/-- A left fold adding a projection equals the starting value plus the sum of
the projections. -/
theorem foldl_add_map_sum (f : RuleResult → ℚ) :
    ∀ (l : List RuleResult) (a : ℚ),
      l.foldl (fun acc r => acc + f r) a = a + (l.map f).sum := by
  intro l
  induction l with
  | nil => intro a; simp
  | cons r t ih =>
    intro a
    simp only [List.foldl_cons, List.map_cons, List.sum_cons, ih, add_assoc]

/-- A left fold subtracting a projection equals the starting value minus the
sum of the projections. -/
theorem foldl_sub_map_sum (f : RuleResult → ℚ) :
    ∀ (l : List RuleResult) (a : ℚ),
      l.foldl (fun acc r => acc - f r) a = a - (l.map f).sum := by
  intro l
  induction l with
  | nil => intro a; simp
  | cons r t ih =>
    intro a
    simp only [List.foldl_cons, List.map_cons, List.sum_cons, ih, sub_sub]

/-- Under the documented result invariant, the per-result summands of the
source sum to the specification aggregate: only failed non-skipped results
contribute, with weight times score. -/
theorem failedContribution_sum_spec (results : List RuleResult)
    (h : ∀ r ∈ results, ResultWF r) :
    (results.map failedContribution).sum = specFailedSum results := by
  unfold specFailedSum
  induction results with
  | nil => rfl
  | cons r t ih =>
    have hr := h r (List.mem_cons_self r t)
    have ht := fun x hx => h x (List.mem_cons_of_mem r hx)
    simp only [List.map_cons, List.sum_cons, List.filter_cons]
    by_cases hc : ((r.passed == some false) && !r.skipped) = true
    · rw [if_pos hc]
      simp only [List.map_cons, List.sum_cons]
      rw [ih ht]
      have hpf : r.passed = some false := by
        have := (Bool.and_eq_true _ _).mp hc
        simpa using this.1
      have : failedContribution r = r.weight * r.score.getD 0 := by
        unfold failedContribution
        cases hs : r.score with
        | none => simp [mul_comm]
        | some s => simp [pyTruthy, hpf]
      rw [this]
    · rw [if_neg hc]
      rw [ih ht]
      have : failedContribution r = 0 := by
        unfold failedContribution
        cases hp : r.passed with
        | none =>
          have := hr.2.2 hp
          simp [this]
        | some b =>
          cases b
          · exfalso
            rw [hp] at hc
            simp at hc
            have h2 := hr.1.mpr hc
            rw [hp] at h2
            exact Option.noConfusion h2
          · cases r.score <;> simp [pyTruthy, hp]
      rw [this, zero_add]

/-- C5.  Under the documented result invariant, the fraud score of a result
list is the sum over failed non-skipped results of weight times score capped
at 1, and the compliance score is 1 minus that same sum floored at 0; passed
and skipped results contribute to neither. -/
theorem fraud_and_compliance_scores_spec (results : List RuleResult)
    (h : ∀ r ∈ results, ResultWF r) :
    calculateFraudScore results = pyMin (specFailedSum results) 1 ∧
    calculateComplianceScore results = pyMax (1 - specFailedSum results) 0 := by
  unfold calculateFraudScore calculateComplianceScore
  rw [foldl_add_map_sum, foldl_sub_map_sum, failedContribution_sum_spec results h,
    zero_add]
  exact ⟨rfl, rfl⟩

/-- C5 witness: a failure of weight 0.5 and score 0.3, a skipped result and a
pass; the theorem applies with the invariant discharged by computation. -/
theorem fraud_and_compliance_scores_spec_witness :
    (∀ r ∈ c5WitnessResults, ResultWF r) ∧
    (calculateFraudScore c5WitnessResults = pyMin (specFailedSum c5WitnessResults) 1 ∧
     calculateComplianceScore c5WitnessResults
        = pyMax (1 - specFailedSum c5WitnessResults) 0) :=
  ⟨by decide, fraud_and_compliance_scores_spec c5WitnessResults (by decide)⟩

/-- C10.  When the allowed amount is present and zero and the billed amount
is strictly positive, the failure-score expression divides the overage by
`allowed * 0.20 = 0`, so `evaluate` raises ZeroDivisionError; the chain-level
handler records the amount check as a skipped result. -/
theorem amount_limit_zero_allowed_divzero (bill : Bill) (ctx : Ctx) (q : ℚ)
    (hb : bill.billed_amount = some q) (ha : bill.allowed_amount = some 0)
    (hq : 0 < q) :
    AmountLimitRule.evaluate bill ctx
        = Except.error { exnType := "ZeroDivisionError",
                         msg := "float division by zero" } ∧
    (runChain bill ctx [amountLimitRule]).map (fun r => (r.skipped, r.passed))
        = [(true, none)] := by
  have h1 : AmountLimitRule.evaluate bill ctx
      = Except.error { exnType := "ZeroDivisionError",
                       msg := "float division by zero" } := by
    simp only [AmountLimitRule.evaluate, hb, ha]
    simp [hq.ne', hq.not_le]
  refine ⟨h1, ?_⟩
  have h2 : amountLimitRule.evaluate bill ctx
      = Except.error { exnType := "ZeroDivisionError",
                       msg := "float division by zero" } := h1
  simp [runChain, h2, errorResult]

/-- C10 witness: the concrete bill with billed 100 and allowed 0. -/
theorem amount_limit_zero_allowed_divzero_witness :
    AmountLimitRule.evaluate c10Bill []
        = Except.error { exnType := "ZeroDivisionError",
                         msg := "float division by zero" } ∧
    (runChain c10Bill [] [amountLimitRule]).map (fun r => (r.skipped, r.passed))
        = [(true, none)] :=
  amount_limit_zero_allowed_divzero c10Bill [] 100 rfl rfl (by norm_num)

/-- C7.  The composite score equals the specified weighted formula (rounded
to four places, which the source applies to the returned field) with absent
layers defaulting to 0.5 and absent legality to 1.0, and the risk level is
the specified two-threshold map of the unrounded score; in particular, with
weights 0.3/0.3/0.2/0.2, all four layers at 0.5 and legality 1.0, the
returned final_fraud_score is exactly 0.5, whatever the thresholds. -/
theorem composite_score_formula_and_half_instance :
    (∀ (w : RiskScoringEngine.Weights) (t : RiskScoringEngine.Thresholds)
        (ls : RiskScoringEngine.LayerScores),
      (RiskScoringEngine.calculate_composite_score w t ls).final_fraud_score
          = RiskScoringEngine.pyRound4 (RiskScoringEngine.specFinalFormula w ls) ∧
      (RiskScoringEngine.calculate_composite_score w t ls).risk_level
          = RiskScoringEngine.specRiskLevel t
              (RiskScoringEngine.specFinalFormula w ls)) ∧
    (∀ t : RiskScoringEngine.Thresholds,
      (RiskScoringEngine.calculate_composite_score
          { rules := 3/10, ml := 3/10, network := 1/5, nlp := 1/5 } t
          { rules_fraud_score := some (1/2), ml_fraud_probability := some (1/2),
            network_risk_score := some (1/2), nlp_risk_score := some (1/2),
            code_legality_score := some 1 }).final_fraud_score = 1/2) := by
  constructor
  · exact fun w t ls => ⟨rfl, rfl⟩
  · intro t
    show RiskScoringEngine.pyRound4
        ((3:ℚ)/10 * (1/2) + 3/10 * (1/2) + 1/5 * (1/2) + 1/5 * (1/2) +
          1/10 * (1 - 1)) = 1/2
    norm_num [RiskScoringEngine.pyRound4]

/-- C8 counterexample.  Fifty-one same-provider same-procedure historical
bills dated fifty days AFTER the bill under evaluation lie outside every
trailing 30-day window ending at the bill date, so the count the claim
describes is zero and the rule should pass; the source nevertheless fails the
bill (its filter has no upper date bound) and, failing, reports score 1
rather than a value scaled by the excess. -/
theorem procedure_frequency_window_counterexample :
    claimWindowCount c8FutureHist "P1" "99214" 100 = 0 ∧
    (ProcedureFrequencyRule.evaluate c8Bill c8FutureCtx).map
        (fun r => (r.passed, r.score))
      = Except.ok (some false, some 1) := by
  constructor
  · decide
  · with_unfolding_all rfl

/-- C8 amended.  With provider, procedure code and bill date present, the
rule skips on an absent or empty historical list; otherwise it counts the
historical bills sharing the provider id and procedure code dated on or
after the bill date minus 30 days (with no upper bound), passes exactly when
that count is at most 50, carries weight 0.5, and on failure its score
`min(count / 50, 1.0)` is always 1. -/
theorem procedure_frequency_amended (p : Provider) (proc : String) (d : Int)
    (bill : Bill) (ctx : Ctx)
    (hprov : bill.provider = some p) (hproc : bill.procedure_code = some proc)
    (hdate : bill.bill_date = some d) (hne : proc ≠ "") :
    (ctxGetBills ctx = [] →
      (ProcedureFrequencyRule.evaluate bill ctx).map
          (fun r => (r.skipped, r.passed))
        = Except.ok (true, none)) ∧
    (ctxGetBills ctx ≠ [] →
      (ProcedureFrequencyRule.evaluate bill ctx).map
          (fun r => (r.passed, r.score, r.weight))
        = Except.ok
            (some (decide
              ((ProcedureFrequencyRule.recentBills (ctxGetBills ctx) p.id proc d).length
                ≤ 50)),
             some (if (ProcedureFrequencyRule.recentBills (ctxGetBills ctx) p.id proc
                       d).length ≤ 50
                   then (0:ℚ) else 1),
             1/2)) := by
  have hne' : (proc == "") = false := by simpa using hne
  constructor
  · intro hemp
    simp [ProcedureFrequencyRule.evaluate, hprov, hproc, hdate, hne', hemp,
      skippedResult, Except.map]
  · intro hne2
    have hne2' : (ctxGetBills ctx).isEmpty = false := by
      cases hctx : ctxGetBills ctx with
      | nil => exact absurd hctx hne2
      | cons a l => rfl
    by_cases hcount :
        (ProcedureFrequencyRule.recentBills (ctxGetBills ctx) p.id proc d).length ≤ 50
    · simp [ProcedureFrequencyRule.evaluate, hprov, hproc, hdate, hne', hne2',
        hcount, Except.map]
    · have hlen : (50:ℚ) <
          ((ProcedureFrequencyRule.recentBills (ctxGetBills ctx) p.id proc
            d).length : ℚ) := by
        exact_mod_cast Nat.lt_of_not_le hcount
      have hmin : pyMin
          (((ProcedureFrequencyRule.recentBills (ctxGetBills ctx) p.id proc
            d).length : ℚ) / 50) 1 = 1 := by
        unfold pyMin
        rw [if_neg]
        rw [not_le, lt_div_iff₀ (by norm_num : (0:ℚ) < 50)]
        linarith
      simp [ProcedureFrequencyRule.evaluate, hprov, hproc, hdate, hne', hne2',
        hcount, hmin, Except.map]

/-- C8 amended witness: fifty-one in-window bills make the rule fail with
score 1 and weight 0.5. -/
theorem procedure_frequency_amended_witness :
    (ProcedureFrequencyRule.evaluate c8Bill c8wCtx).map
        (fun r => (r.passed, r.score, r.weight))
      = Except.ok (some false, some 1, 1/2) := by
  have h := (procedure_frequency_amended { id := "P1" } "99214" 100 c8Bill c8wCtx
    rfl rfl rfl (by decide)).2 (by decide)
  rw [h]
  with_unfolding_all rfl

/-- C9 counterexample.  With historical amounts 1, 1, 1, 1, 100 and current
amount 1 (Benford not anomalous), the maximum squared z-score is 5 (a
magnitude above 2 attained by a HISTORICAL amount) while the squared z-score
of the latest value is 1/5, so the source adds 0.3 where the claim, which
reads the latest value only, adds nothing. -/
theorem anomaly_score_latest_counterexample :
    AnomalyDetection.analyzeBillAnomalyScore 1 [1, 1, 1, 1, 100] false = 3/10 ∧
    AnomalyDetection.specLatestAnomalyScore 1 [1, 1, 1, 1, 100] false = 0 ∧
    AnomalyDetection.analyzeBillAnomalyScore 1 [1, 1, 1, 1, 100] false ≠
      AnomalyDetection.specLatestAnomalyScore 1 [1, 1, 1, 1, 100] false := by
  refine ⟨by with_unfolding_all decide, by with_unfolding_all decide,
    by with_unfolding_all decide⟩

/-- A value exceeds `pyMax a b` from below exactly when it exceeds one of the
two arguments. -/
theorem lt_pyMax_iff (c a b : ℚ) : c < pyMax a b ↔ c < a ∨ c < b := by
  unfold pyMax
  split
  · next h =>
    constructor
    · exact fun hb => Or.inr hb
    · rintro (hca | hcb)
      · exact lt_of_lt_of_le hca h
      · exact hcb
  · next h =>
    have hba : b ≤ a := le_of_not_le h
    constructor
    · exact fun ha => Or.inl ha
    · rintro (hca | hcb)
      · exact hca
      · exact lt_of_lt_of_le hcb hba

/-- A fold of `pyMax` exceeds a bound exactly when the seed or some listed
value does. -/
theorem lt_foldl_pyMax_iff (c : ℚ) :
    ∀ (zs : List ℚ) (z : ℚ),
      (c < zs.foldl pyMax z) ↔ (c < z ∨ ∃ w ∈ zs, c < w) := by
  intro zs
  induction zs with
  | nil => intro z; simp
  | cons w ws ih =>
    intro z
    simp only [List.foldl_cons, ih, lt_pyMax_iff, List.mem_cons]
    constructor
    · rintro ((h | h) | ⟨u, hu, hcu⟩)
      · exact Or.inl h
      · exact Or.inr ⟨w, Or.inl rfl, h⟩
      · exact Or.inr ⟨u, Or.inr hu, hcu⟩
    · rintro (h | ⟨u, hu, hcu⟩)
      · exact Or.inl (Or.inl h)
      · cases hu with
        | inl he => subst he; exact Or.inl (Or.inr hcu)
        | inr hm => exact Or.inr ⟨u, hm, hcu⟩

/-- C9 amended.  The composite per-bill anomaly score is driven by the
maximum squared z-score over the historical amounts and the current one
(0.5 above threshold 3, else 0.3 above 2), plus the flat Benford 0.5, capped
at 1. -/
theorem anomaly_score_max_amended (amount : ℚ) (hist : List ℚ) (benford : Bool) :
    AnomalyDetection.analyzeBillAnomalyScore amount hist benford
      = AnomalyDetection.specMaxAnomalyScore amount hist benford := by
  unfold AnomalyDetection.analyzeBillAnomalyScore
    AnomalyDetection.specMaxAnomalyScore AnomalyDetection.calculateAnomalyScore
  cases h : AnomalyDetection.zScoreSqList (hist ++ [amount]) with
  | nil => simp
  | cons z zs =>
    have e9 : (9 < zs.foldl pyMax z) ↔ (∃ w ∈ z :: zs, (9:ℚ) < w) := by
      rw [lt_foldl_pyMax_iff]; simp
    have e4 : (4 < zs.foldl pyMax z) ↔ (∃ w ∈ z :: zs, (4:ℚ) < w) := by
      rw [lt_foldl_pyMax_iff]; simp
    simp only [gt_iff_lt, e9, e4]

end HCAudit
